import Mathlib

/-!
Verification of the tambourine-tower repository against its specification.

Two areas are formalised:

* `HistoryUI`: a shallow embedding of the history-feed helpers found in the
  settings UI source (`buildAnalysisPrompt`, pagination of `HistoryFeed`,
  `normalizePersistedHistoryFilters`).  These are translated directly from
  the TypeScript source.

* `Overlay`: the per-tick waveform analysis pipeline of the `AudioWave`
  component.  The component's own source file is not part of the provided
  sources (only its documentation is), so the pipeline is modelled from the
  specification, with each definition's doc comment marking this.
-/

namespace HistoryUI

/-- Page size used by the history feed pagination (source constant
`HISTORY_PAGE_SIZE = 25`). -/
def HISTORY_PAGE_SIZE : ℕ := 25

/-- Total page count: `Math.max(1, Math.ceil(filteredHistory.length / HISTORY_PAGE_SIZE))`.
Natural-number ceiling division `(len + 24) / 25` matches `Math.ceil` on
non-negative integers. -/
def totalPages (filteredLen : ℕ) : ℕ :=
  max 1 ((filteredLen + HISTORY_PAGE_SIZE - 1) / HISTORY_PAGE_SIZE)

/-- The clamp applied by the effect
`setPage (current => Math.min(Math.max(1, current), totalPages))`. -/
def clampPage (current tp : ℕ) : ℕ := min (max 1 current) tp

/-- The displayed slice: `filteredHistory.slice(start, start + HISTORY_PAGE_SIZE)`
with `start = (page - 1) * HISTORY_PAGE_SIZE`. -/
def pageHistory {α : Type} (filtered : List α) (page : ℕ) : List α :=
  (filtered.drop ((page - 1) * HISTORY_PAGE_SIZE)).take HISTORY_PAGE_SIZE

/-- A JavaScript-style value, as read back from the persisted store
(`store.get(HISTORY_FILTERS_STORE_KEY)` yields `unknown`). -/
inductive JsValue : Type where
  | undefined : JsValue
  | null : JsValue
  | bool (b : Bool) : JsValue
  | num (q : ℚ) : JsValue
  | str (s : String) : JsValue
  | arr (elems : List JsValue) : JsValue
  | obj (fields : List (String × JsValue)) : JsValue

/-- The guard `!value || typeof value !== "object"`: only non-null objects
(plain objects and arrays) pass it. -/
def isNonNullObject : JsValue → Bool
  | .arr _ => true
  | .obj _ => true
  | _ => false

/-- JavaScript property access `v.key` on the guarded value: a missing key
(or a non-object receiver) reads as `undefined`. -/
def getField : JsValue → String → JsValue
  | .obj fields, key => (fields.lookup key).getD .undefined
  | _, _ => .undefined

/-- Source `normalizeStringArray`: non-arrays become `[]`; array elements that
are not strings are dropped. -/
def normalizeStringArray : JsValue → List String
  | .arr elems => elems.filterMap fun v =>
      match v with
      | .str s => some s
      | _ => none
  | _ => []

/-- Source type `PersistedHistoryFilters`. -/
structure PersistedHistoryFilters : Type where
  filterText : String
  showFailed : Bool
  showEmptyTranscript : Bool
  selectedSttModelKeys : List String
  selectedLlmModelKeys : List String
deriving DecidableEq

/-- Source `normalizePersistedHistoryFilters`.  The known model keys come from
`listAllSttModelKeys()` / `listAllLlmModelKeys()` in `../lib/modelOptions`,
a module not among the provided sources, so the two key sets are taken as
parameters. -/
def normalizePersistedHistoryFilters (knownSttKeys knownLlmKeys : List String)
    (value : JsValue) : Option PersistedHistoryFilters :=
  if isNonNullObject value then
    some
      { filterText :=
          match getField value "filterText" with
          | .str s => s
          | _ => ""
        showFailed :=
          match getField value "showFailed" with
          | .bool b => b
          | _ => true
        showEmptyTranscript :=
          match getField value "showEmptyTranscript" with
          | .bool b => b
          | _ => false
        selectedSttModelKeys :=
          (normalizeStringArray (getField value "selectedSttModelKeys")).filter
            fun k => knownSttKeys.contains k
        selectedLlmModelKeys :=
          (normalizeStringArray (getField value "selectedLlmModelKeys")).filter
            fun k => knownLlmKeys.contains k }
  else
    none

/-- Transcription status of a history entry (`"in_progress" | "success" | "error"`). -/
inductive EntryStatus : Type where
  | in_progress : EntryStatus
  | success : EntryStatus
  | error : EntryStatus
deriving DecidableEq

/-- A history entry as consumed by `buildAnalysisPrompt`.  Timestamps are the
millisecond values produced by `new Date(timestamp).getTime()`. -/
structure HistoryEntry : Type where
  id : String
  text : String
  timestamp : ℤ
  status : Option EntryStatus

/-- The source's `entry.status ?? "success"` defaulting. -/
def statusOrSuccess (e : HistoryEntry) : EntryStatus := e.status.getD EntryStatus.success

/-- The map step `{ ...e, text: (e.text ?? "").trim() }`. -/
def trimEntry (e : HistoryEntry) : HistoryEntry := { e with text := e.text.trim }

/-- Source `allTranscripts`: keep entries whose status is success (or absent),
trim their text and drop those whose trimmed text is empty. -/
def allTranscripts (history : List HistoryEntry) : List HistoryEntry :=
  ((history.filter fun e => decide (statusOrSuccess e = EntryStatus.success)).map
      trimEntry).filter
    fun e => decide (0 < e.text.length)

/-- Source `cutoffMs`: a positive finite `includeFromLastHours` yields the
cutoff `Date.now() - includeFromLastHours * 60 * 60 * 1000`, otherwise `null`.
JavaScript numbers are modelled as rationals, where finiteness is automatic. -/
def cutoffMs (now : ℤ) (includeFromLastHours : Option ℚ) : Option ℚ :=
  match includeFromLastHours with
  | some h => if 0 < h then some ((now : ℚ) - h * (60 * 60 * 1000)) else none
  | none => none

/-- Source `filtered`: when a cutoff exists keep transcripts with
`new Date(t.timestamp).getTime() >= cutoffMs`. -/
def windowFiltered (history : List HistoryEntry) (now : ℤ) (hrs : Option ℚ) :
    List HistoryEntry :=
  match cutoffMs now hrs with
  | some c => (allTranscripts history).filter fun e => decide (c ≤ (e.timestamp : ℚ))
  | none => allTranscripts history

/-- The sort comparator `(a, b) => ta - tb` as a boolean order on timestamps. -/
def tsLe (a b : HistoryEntry) : Bool := decide (a.timestamp ≤ b.timestamp)

/-- Source `transcripts`: the window-filtered transcripts sorted by timestamp
ascending. -/
def sortedTranscripts (history : List HistoryEntry) (now : ℤ) (hrs : Option ℚ) :
    List HistoryEntry :=
  (windowFiltered history now hrs).mergeSort tsLe

/-- Prompt styles accepted by `buildAnalysisPrompt`. -/
inductive AnalysisPromptStyle : Type where
  | productive : AnalysisPromptStyle
  | insightful : AnalysisPromptStyle
  | structured : AnalysisPromptStyle

/-- Source `buildAnalysisSystemPrompt`. -/
def buildAnalysisSystemPrompt (style : AnalysisPromptStyle) : String :=
  match style with
  | .productive =>
      "You are an expert assistant. Analyze the following voice dictation transcripts." ++
        "\n\nGoals:" ++
        "\n- Identify recurring themes, priorities, open questions, and next actions." ++
        "\n- Produce a concise summary and a structured list of action items." ++
        "\n- Call out contradictions, missing context, and risks." ++
        "\n\nOutput format:" ++
        "\n1) Executive summary (5-10 bullets)" ++
        "\n2) Themes (grouped)" ++
        "\n3) Action items (with suggested owners + priority)" ++
        "\n4) Open questions" ++
        "\n5) Notable quotes (optional)"
  | .insightful =>
      "You are an insightful analyst. Read the transcripts and infer intent, context, and patterns." ++
        "\n\nFocus:" ++
        "\n- Hidden assumptions and recurring frustrations" ++
        "\n- Opportunities, risks, and what to do next" ++
        "\n- What seems important but unstated" ++
        "\n\nOutput format:" ++
        "\n1) Key insights (bullets)" ++
        "\n2) Themes & evidence (quotes or references)" ++
        "\n3) Recommendations" ++
        "\n4) Open questions"
  | .structured =>
      "You are a meticulous organizer. Turn these transcripts into a clean plan." ++
        "\n\nRules:" ++
        "\n- Be concise." ++
        "\n- Use headings and bullet lists." ++
        "\n- Prefer concrete next steps." ++
        "\n\nOutput format:" ++
        "\n## Summary" ++
        "\n## Goals" ++
        "\n## Tasks (priority-ordered)" ++
        "\n## Decisions needed" ++
        "\n## Questions"

/-- One line of the transcripts block.  The `format(new Date(ts), ...)` call is
an external date-format library; it is taken as the parameter `formatTs`. -/
def transcriptLine (formatTs : ℤ → String) (idx : ℕ) (e : HistoryEntry) : String :=
  "\n[Recording " ++ toString (idx + 1) ++ " • " ++ formatTs e.timestamp ++ "]\n" ++ e.text

/-- Source `buildTranscriptsUserPrompt`: header line followed by one block per
transcript, in list order, joined with newlines. -/
def buildTranscriptsUserPrompt (formatTs : ℤ → String)
    (transcripts : List HistoryEntry) : String :=
  String.intercalate "\n"
    ("---\nTRANSCRIPTS\n---" :: transcripts.mapIdx fun idx e => transcriptLine formatTs idx e)

/-- The record returned by `buildAnalysisPrompt`. -/
structure AnalysisPromptResult : Type where
  prompt : String
  systemPrompt : String
  userPrompt : String
  includedCount : ℕ
  totalCount : ℕ
  availableTranscriptsCount : ℕ

/-- Source `buildAnalysisPrompt` assembled from the pieces above. -/
def buildAnalysisPrompt (formatTs : ℤ → String) (history : List HistoryEntry)
    (now : ℤ) (includeFromLastHours : Option ℚ) (style : AnalysisPromptStyle) :
    AnalysisPromptResult :=
  let transcripts := sortedTranscripts history now includeFromLastHours
  let systemPrompt := buildAnalysisSystemPrompt style
  let userPrompt := buildTranscriptsUserPrompt formatTs transcripts
  let promptParts :=
    if transcripts.length = 0 then
      [systemPrompt, userPrompt,
        "(No non-empty transcripts matched your filter. Record something first, then try again.)"]
    else [systemPrompt, userPrompt]
  { prompt := String.intercalate "\n\n" promptParts
    systemPrompt := systemPrompt
    userPrompt := userPrompt
    includedCount := transcripts.length
    totalCount := history.length
    availableTranscriptsCount := (allTranscripts history).length }

end HistoryUI

namespace Overlay

/-- Modelled from the spec: the tunable configuration surface of the waveform
pipeline (section 6); the `AudioWave` component holding these constants is not
among the provided sources. -/
structure Config : Type where
  riseSmall : ℝ
  riseSpike : ℝ
  fall : ℝ
  spikeDelta : ℝ
  noiseMargin : ℝ
  silenceThreshold : ℝ
  energyScale : ℝ
  temporalR : ℝ
  maxGain : ℝ
  targetPeak : ℝ
  smoothedPeakFloor : ℝ
  peakDecay : ℝ
  deadzone : ℝ
  softClipShape : ℝ

/-- Modelled from the spec: the frequency bins whose center frequency
`binIndex * binHz` lies in the band `[lo, hi]` Hz (section 4.4 steps 1-2). -/
def bandBins (m : ℕ) (binHz lo hi : ℚ) : Finset (Fin m) :=
  Finset.univ.filter fun i => lo ≤ (i : ℚ) * binHz ∧ (i : ℚ) * binHz ≤ hi

/-- Modelled from the spec: the speech band, 300-3400 Hz. -/
def speechBins (m : ℕ) (binHz : ℚ) : Finset (Fin m) := bandBins m binHz 300 3400

/-- Modelled from the spec: the total band, 60-8000 Hz. -/
def totalBins (m : ℕ) (binHz : ℚ) : Finset (Fin m) := bandBins m binHz 60 8000

/-- Modelled from the spec: root-mean-square energy over a band's bins,
`sqrt (mean (magnitude^2))` (section 4.4 step 3). -/
noncomputable def bandRms {m : ℕ} (s : Finset (Fin m)) (freq : Fin m → ℝ) : ℝ :=
  Real.sqrt ((∑ i ∈ s, freq i ^ 2) / s.card)

/-- Modelled from the spec: RMS energy over the speech band. -/
noncomputable def speechRms {m : ℕ} (binHz : ℚ) (freq : Fin m → ℝ) : ℝ :=
  bandRms (speechBins m binHz) freq

/-- Modelled from the spec: RMS energy over the total band. -/
noncomputable def totalRms {m : ℕ} (binHz : ℚ) (freq : Fin m → ℝ) : ℝ :=
  bandRms (totalBins m binHz) freq

/-- Modelled from the spec: `speechRatio = speechRms / totalRms`, guarding a
zero denominator to ratio 0 (section 4.4 step 4). -/
noncomputable def speechRatio {m : ℕ} (binHz : ℚ) (freq : Fin m → ℝ) : ℝ :=
  if totalRms binHz freq = 0 then 0 else speechRms binHz freq / totalRms binHz freq

/-- Modelled from the spec:
`speechMetric = speechRms * clamp(speechRatio, 0, 1.6)` (section 4.4 step 5). -/
noncomputable def speechMetric {m : ℕ} (binHz : ℚ) (freq : Fin m → ℝ) : ℝ :=
  speechRms binHz freq * min 1.6 (max 0 (speechRatio binHz freq))

/-- Modelled from the spec: the asymmetric exponential noise-floor update
(section 4.4 step 6): raise slowly on a small excess, even more slowly when the
metric spikes more than `spikeDelta` above the floor, and fall at a moderate
rate when the metric is at or below the floor. -/
noncomputable def noiseFloorStep (cfg : Config) (floor metric : ℝ) : ℝ :=
  if floor < metric then
    if floor + cfg.spikeDelta < metric then floor + cfg.riseSpike * (metric - floor)
    else floor + cfg.riseSmall * (metric - floor)
  else floor + cfg.fall * (metric - floor)

/-- Modelled from the spec: `voiceEnergy` is a normalized ([0,1]-clamped)
measure of how far `speechMetric` exceeds `noiseFloor` plus the configured
margin (section 4.4 step 7). -/
noncomputable def voiceEnergy (cfg : Config) (floor metric : ℝ) : ℝ :=
  max 0 (min 1 ((metric - (floor + cfg.noiseMargin)) / cfg.energyScale))

/-- Modelled from the spec: `gain = min(maxGain, targetPeak / smoothedPeak)`
(section 4.5 step 3). -/
noncomputable def gainOf (cfg : Config) (smoothedPeak : ℝ) : ℝ :=
  min cfg.maxGain (cfg.targetPeak / smoothedPeak)

/-- Modelled from the spec: the deadzone, snapping magnitudes below the
threshold to zero (section 4.5 step 5). -/
noncomputable def deadzoneAt (dz x : ℝ) : ℝ :=
  if |x| < dz then 0 else x

/-- Modelled from the spec: `tanh`-based soft clipping (section 4.5 step 5). -/
noncomputable def softClip (shape x : ℝ) : ℝ := Real.tanh (shape * x)

/-- Modelled from the spec: one point of the non-silent shaping path: gain,
then deadzone, then soft clip. -/
noncomputable def shapePoint (cfg : Config) (gain x : ℝ) : ℝ :=
  softClip cfg.softClipShape (deadzoneAt cfg.deadzone (gain * x))

/-- Modelled from the spec: the WaveformShaper's point buffer for one tick:
all-zero when silent, otherwise the shaped points (section 4.5 steps 4-5). -/
noncomputable def shapedFrame (cfg : Config) {n : ℕ} (silent : Bool) (gain : ℝ)
    (next : Fin n → ℝ) : Fin n → ℝ :=
  if silent then fun _ => 0 else fun i => shapePoint cfg gain (next i)

/-- Modelled from the spec: the TemporalSmoother:
`prev[i] = prev[i]*(1-r) + next[i]*r`, snapped to all-zero on a silent tick
(section 4.6). -/
noncomputable def temporalStep (r : ℝ) {n : ℕ} (silent : Bool)
    (prev next : Fin n → ℝ) : Fin n → ℝ :=
  if silent then fun _ => 0 else fun i => prev i * (1 - r) + next i * r

/-- Modelled from the spec: the fixed 5-tap spatial kernel
`[0.15, 0.20, 0.30, 0.20, 0.15]` indexed by offset from the center tap. -/
noncomputable def kernelW (o : ℤ) : ℝ :=
  if o = -2 then 0.15
  else if o = -1 then 0.20
  else if o = 0 then 0.30
  else if o = 1 then 0.20
  else if o = 2 then 0.15
  else 0

/-- Modelled from the spec: the SpatialSmoother at one point: the kernel
convolved across the point sequence, boundary points using the available
shortened neighborhood (the weights actually in range, renormalized so they
still sum to one) (section 4.7). -/
noncomputable def spatialAt {n : ℕ} (x : Fin n → ℝ) (i : Fin n) : ℝ :=
  (∑ o ∈ Finset.Icc (-2 : ℤ) 2,
      if h : 0 ≤ (i : ℤ) + o ∧ (i : ℤ) + o < (n : ℤ) then
        kernelW o * x ⟨((i : ℤ) + o).toNat, by omega⟩
      else 0) /
    (∑ o ∈ Finset.Icc (-2 : ℤ) 2,
      if 0 ≤ (i : ℤ) + o ∧ (i : ℤ) + o < (n : ℤ) then kernelW o else 0)

/-- Modelled from the spec: the persistent per-session state mutated by each
tick (section 3): the temporal-smoother buffer, the draw buffer, the decaying
peak and the adaptive noise floor. -/
structure State (n : ℕ) : Type where
  lastPoints : Fin n → ℝ
  drawPoints : Fin n → ℝ
  smoothedPeak : ℝ
  noiseFloor : ℝ

/-- Modelled from the spec: `peak = max(|point|)` over the downsampled frame
(section 4.5 step 2). -/
noncomputable def framePeak {n : ℕ} (next : Fin n → ℝ) : ℝ :=
  (List.ofFn fun i => |next i|).foldr max 0

/-- Modelled from the spec: the noise floor after this tick's update, driven
by this tick's speech metric. -/
noncomputable def tickFloor (cfg : Config) {m : ℕ} (binHz : ℚ) (floor0 : ℝ)
    (freq : Fin m → ℝ) : ℝ :=
  noiseFloorStep cfg floor0 (speechMetric binHz freq)

/-- Modelled from the spec: this tick's gate,
`isSilent = voiceEnergy < silenceThreshold` (section 4.4 step 8), computed
against the updated floor. -/
noncomputable def tickIsSilent (cfg : Config) {m : ℕ} (binHz : ℚ) (floor0 : ℝ)
    (freq : Fin m → ℝ) : Bool :=
  decide (voiceEnergy cfg (tickFloor cfg binHz floor0 freq)
    (speechMetric binHz freq) < cfg.silenceThreshold)

/-- Modelled from the spec: the decaying peak estimate, blended with the new
frame peak (or decayed toward its floor when silent) and clamped below by the
configured floor (section 4.5 steps 2 and 4). -/
noncomputable def tickSmoothedPeak (cfg : Config) {n m : ℕ} (binHz : ℚ)
    (st : State n) (next : Fin n → ℝ) (freq : Fin m → ℝ) : ℝ :=
  if tickIsSilent cfg binHz st.noiseFloor freq then
    max cfg.smoothedPeakFloor (st.smoothedPeak * (1 - cfg.peakDecay))
  else
    max cfg.smoothedPeakFloor
      (st.smoothedPeak * (1 - cfg.peakDecay) + framePeak next * cfg.peakDecay)

/-- Modelled from the spec: the WaveformShaper's point buffer produced on this
tick. -/
noncomputable def tickShapedFrame (cfg : Config) {n m : ℕ} (binHz : ℚ)
    (st : State n) (next : Fin n → ℝ) (freq : Fin m → ℝ) : Fin n → ℝ :=
  shapedFrame cfg (tickIsSilent cfg binHz st.noiseFloor freq)
    (gainOf cfg (tickSmoothedPeak cfg binHz st next freq)) next

/-- Modelled from the spec: the TemporalSmoother's buffer after this tick. -/
noncomputable def tickLastPoints (cfg : Config) {n m : ℕ} (binHz : ℚ)
    (st : State n) (next : Fin n → ℝ) (freq : Fin m → ℝ) : Fin n → ℝ :=
  temporalStep cfg.temporalR (tickIsSilent cfg binHz st.noiseFloor freq)
    st.lastPoints (tickShapedFrame cfg binHz st next freq)

/-- Modelled from the spec: one tick of the active pipeline (section 2):
estimator update, gating, shaping, temporal then spatial smoothing. -/
noncomputable def tick (cfg : Config) {n m : ℕ} (binHz : ℚ) (st : State n)
    (next : Fin n → ℝ) (freq : Fin m → ℝ) : State n :=
  { lastPoints := tickLastPoints cfg binHz st next freq
    drawPoints := fun i => spatialAt (tickLastPoints cfg binHz st next freq) i
    smoothedPeak := tickSmoothedPeak cfg binHz st next freq
    noiseFloor := tickFloor cfg binHz st.noiseFloor freq }

/-- Modelled from the spec: the state after running k strictly sequential
ticks over the given per-tick snapshots (section 5). -/
noncomputable def runTicks (cfg : Config) {n m : ℕ} (binHz : ℚ) (st0 : State n)
    (nexts : ℕ → Fin n → ℝ) (freqs : ℕ → Fin m → ℝ) : ℕ → State n
  | 0 => st0
  | k + 1 => tick cfg binHz (runTicks cfg binHz st0 nexts freqs k) (nexts k) (freqs k)

/-- Modelled from the spec: the outcome of one call to the capture-device
provider (section 6). -/
inductive AcquireResult (σ : Type) : Type where
  | ok (stream : σ) : AcquireResult σ
  | err : AcquireResult σ

/-- Modelled from the spec: the error surfaced when device open fails even
after the default fallback (section 7). -/
inductive CaptureError : Type where
  | captureUnavailable : CaptureError

/-- Modelled from the spec: result of `open(deviceId | none)` (section 4.2). -/
inductive OpenResult (σ : Type) : Type where
  | session (s : σ) : OpenResult σ
  | failure (e : CaptureError) : OpenResult σ

/-- Modelled from the spec: session acquisition (section 4.2): a failing
specific device id is retried exactly once against the default device before
`CaptureUnavailable` is surfaced.  The first component records the sequence of
acquisition attempts made. -/
def openSession {σ : Type} (acquire : Option String → AcquireResult σ)
    (deviceId : Option String) : List (Option String) × OpenResult σ :=
  match deviceId with
  | some id =>
    match acquire (some id) with
    | .ok s => ([some id], .session s)
    | .err =>
      match acquire none with
      | .ok s => ([some id, none], .session s)
      | .err => ([some id, none], .failure .captureUnavailable)
  | none =>
    match acquire none with
    | .ok s => ([none], .session s)
    | .err => ([none], .failure .captureUnavailable)

/-- Modelled from the spec: the visualization runs either the IdleAnimator or
an active capture session (design note: tagged variant `Idle | Active`). -/
inductive Mode (σ : Type) : Type where
  | idle : Mode σ
  | active (s : σ) : Mode σ

/-- Modelled from the spec: activation falls back to the IdleAnimator when
acquisition fails; no capture error escapes past this boundary (section 7). -/
def activate {σ : Type} (acquire : Option String → AcquireResult σ)
    (deviceId : Option String) : Mode σ :=
  match (openSession acquire deviceId).2 with
  | .session s => .active s
  | .failure _ => .idle

/-- A concrete configuration, within all documented parameter ranges, used by
the witness instantiations below. -/
noncomputable def cfgW : Config :=
  { riseSmall := 1/20
    riseSpike := 1/100
    fall := 1/10
    spikeDelta := 1/2
    noiseMargin := 1/4
    silenceThreshold := 1/2
    energyScale := 1
    temporalR := 1/4
    maxGain := 4
    targetPeak := 3/4
    smoothedPeakFloor := 1/20
    peakDecay := 1/10
    deadzone := 1/50
    softClipShape := 1 }

end Overlay

namespace HistoryUI

/-- C9: pagination invariants of `HistoryFeed`: `totalPages` is at least 1 even
for an empty filtered history, the displayed page slice never holds more than
`HISTORY_PAGE_SIZE` (25) entries, and the page clamp always lands in the range
`[1, totalPages]`. -/
theorem pagination_invariants {α : Type} (filtered : List α) (page current : ℕ) :
    1 ≤ totalPages filtered.length ∧
    (pageHistory filtered page).length ≤ HISTORY_PAGE_SIZE ∧
    1 ≤ clampPage current (totalPages filtered.length) ∧
    clampPage current (totalPages filtered.length) ≤ totalPages filtered.length := by
  refine ⟨le_max_left _ _, ?_, ?_, min_le_right _ _⟩
  · simp only [pageHistory, List.length_take]
    omega
  · exact le_min (le_max_left _ _) (le_max_left _ _)

/-- C10: `normalizePersistedHistoryFilters` returns `none` on every input that
is not a non-null object; on object inputs every selected model key in the
result is a known key (non-string and unknown entries are dropped), and
missing or mistyped scalar fields take the defaults `filterText = ""`,
`showFailed = true`, `showEmptyTranscript = false`. -/
theorem normalizePersistedHistoryFilters_spec
    (knownSttKeys knownLlmKeys : List String) (value : JsValue) :
    (isNonNullObject value = false →
      normalizePersistedHistoryFilters knownSttKeys knownLlmKeys value = none) ∧
    (∀ r, normalizePersistedHistoryFilters knownSttKeys knownLlmKeys value = some r →
      (∀ k ∈ r.selectedSttModelKeys, k ∈ knownSttKeys) ∧
      (∀ k ∈ r.selectedLlmModelKeys, k ∈ knownLlmKeys) ∧
      ((∀ s, getField value "filterText" ≠ .str s) → r.filterText = "") ∧
      ((∀ b, getField value "showFailed" ≠ .bool b) → r.showFailed = true) ∧
      ((∀ b, getField value "showEmptyTranscript" ≠ .bool b) →
        r.showEmptyTranscript = false)) := by
  constructor
  · intro h
    simp [normalizePersistedHistoryFilters, h]
  · intro r hr
    rw [normalizePersistedHistoryFilters] at hr
    by_cases hobj : isNonNullObject value = true
    · rw [if_pos hobj] at hr
      have hr' := (Option.some_inj.mp hr).symm
      subst hr'
      refine ⟨?_, ?_, ?_, ?_, ?_⟩
      · intro k hk
        have := (List.mem_filter.mp hk).2
        exact List.mem_of_elem_eq_true this
      · intro k hk
        have := (List.mem_filter.mp hk).2
        exact List.mem_of_elem_eq_true this
      · intro hmiss
        cases hft : getField value "filterText" <;> simp [hft]
        exact absurd hft (hmiss _)
      · intro hmiss
        cases hft : getField value "showFailed" <;> simp [hft]
        exact absurd hft (hmiss _)
      · intro hmiss
        cases hft : getField value "showEmptyTranscript" <;> simp [hft]
        exact absurd hft (hmiss _)
    · rw [if_neg hobj] at hr
      exact absurd hr (by simp)

/-- Concrete instantiation of the C10 theorem: an object holding one known and
one unknown STT key plus a non-string entry keeps exactly the known key and
takes all three scalar defaults; a plain string input normalizes to `none`. -/
theorem normalizePersistedHistoryFilters_spec_witness :
    (normalizePersistedHistoryFilters ["openai::whisper-1"] []
        (JsValue.str "oops") = none) ∧
    (∀ k ∈ (PersistedHistoryFilters.mk "" true false ["openai::whisper-1"]
        []).selectedSttModelKeys, k ∈ ["openai::whisper-1"]) ∧
    (PersistedHistoryFilters.mk "" true false ["openai::whisper-1"]
        []).filterText = "" := by
  have h := normalizePersistedHistoryFilters_spec ["openai::whisper-1"] []
    (JsValue.obj [("selectedSttModelKeys",
      JsValue.arr [JsValue.str "openai::whisper-1", JsValue.str "nope",
        JsValue.num 3])])
  have hval : normalizePersistedHistoryFilters ["openai::whisper-1"] []
      (JsValue.obj [("selectedSttModelKeys",
        JsValue.arr [JsValue.str "openai::whisper-1", JsValue.str "nope",
          JsValue.num 3])]) =
      some (PersistedHistoryFilters.mk "" true false ["openai::whisper-1"] []) := by
    decide
  have h2 := h.2 _ hval
  have hstr := (normalizePersistedHistoryFilters_spec ["openai::whisper-1"] []
    (JsValue.str "oops")).1 (by decide)
  have hmiss : ∀ s, getField (JsValue.obj [("selectedSttModelKeys",
      JsValue.arr [JsValue.str "openai::whisper-1", JsValue.str "nope",
        JsValue.num 3])]) "filterText" ≠ JsValue.str s := by
    intro s hs
    rw [show getField (JsValue.obj [("selectedSttModelKeys",
      JsValue.arr [JsValue.str "openai::whisper-1", JsValue.str "nope",
        JsValue.num 3])]) "filterText" = JsValue.undefined from rfl] at hs
    exact JsValue.noConfusion hs
  exact ⟨hstr, h2.1, h2.2.2.1 hmiss⟩

/-- The timestamp comparator is transitive. -/
theorem tsLe_trans : ∀ a b c : HistoryEntry, tsLe a b → tsLe b c → tsLe a c := by
  intro a b c hab hbc
  exact decide_eq_true (le_trans (of_decide_eq_true hab) (of_decide_eq_true hbc))

/-- The timestamp comparator is total. -/
theorem tsLe_total : ∀ a b : HistoryEntry, tsLe a b || tsLe b a := by
  intro a b
  rcases Int.le_total a.timestamp b.timestamp with h | h
  · exact Bool.or_eq_true_iff.mpr (Or.inl (decide_eq_true h))
  · exact Bool.or_eq_true_iff.mpr (Or.inr (decide_eq_true h))

/-- C8: the transcripts used by `buildAnalysisPrompt` are exactly the history
entries with status success (or absent) whose trimmed text is non-empty and,
when a cutoff results from `includeFromLastHours`, whose timestamp meets it;
they enter the user prompt sorted by timestamp ascending; and the returned
counts satisfy `includedCount ≤ availableTranscriptsCount ≤ totalCount`. -/
theorem buildAnalysisPrompt_spec (formatTs : ℤ → String) (history : List HistoryEntry)
    (now : ℤ) (hrs : Option ℚ) (style : AnalysisPromptStyle) :
    (∀ e, e ∈ sortedTranscripts history now hrs ↔
      ((∃ e₀ ∈ history, statusOrSuccess e₀ = EntryStatus.success ∧ e = trimEntry e₀) ∧
        0 < e.text.length ∧
        ∀ c, cutoffMs now hrs = some c → c ≤ (e.timestamp : ℚ))) ∧
    (sortedTranscripts history now hrs).Pairwise (fun a b => a.timestamp ≤ b.timestamp) ∧
    (buildAnalysisPrompt formatTs history now hrs style).userPrompt =
      buildTranscriptsUserPrompt formatTs (sortedTranscripts history now hrs) ∧
    (buildAnalysisPrompt formatTs history now hrs style).includedCount ≤
      (buildAnalysisPrompt formatTs history now hrs style).availableTranscriptsCount ∧
    (buildAnalysisPrompt formatTs history now hrs style).availableTranscriptsCount ≤
      (buildAnalysisPrompt formatTs history now hrs style).totalCount := by
  have hmemAll : ∀ e, e ∈ allTranscripts history ↔
      ((∃ e₀ ∈ history, statusOrSuccess e₀ = EntryStatus.success ∧ e = trimEntry e₀) ∧
        0 < e.text.length) := by
    intro e
    show e ∈ ((history.filter fun e => decide (statusOrSuccess e = EntryStatus.success)).map
        trimEntry).filter (fun e => decide (0 < e.text.length)) ↔ _
    constructor
    · intro h
      obtain ⟨he, hlen⟩ := List.mem_filter.mp h
      obtain ⟨e₀, he₀f, rfl⟩ := List.mem_map.mp he
      obtain ⟨he₀, hst⟩ := List.mem_filter.mp he₀f
      exact ⟨⟨e₀, he₀, of_decide_eq_true hst, rfl⟩, of_decide_eq_true hlen⟩
    · rintro ⟨⟨e₀, he₀, hst, rfl⟩, hlen⟩
      exact List.mem_filter.mpr ⟨List.mem_map.mpr
        ⟨e₀, List.mem_filter.mpr ⟨he₀, decide_eq_true hst⟩, rfl⟩, decide_eq_true hlen⟩
  refine ⟨?_, ?_, rfl, ?_, ?_⟩
  · intro e
    rw [sortedTranscripts, List.mem_mergeSort, windowFiltered]
    cases hc : cutoffMs now hrs with
    | none =>
        rw [hmemAll e]
        constructor
        · rintro ⟨hx, hlen⟩
          exact ⟨hx, hlen, fun c h => Option.noConfusion h⟩
        · rintro ⟨hx, hlen, _⟩
          exact ⟨hx, hlen⟩
    | some c =>
        rw [List.mem_filter, hmemAll e]
        constructor
        · rintro ⟨⟨hx, hlen⟩, hcut⟩
          refine ⟨hx, hlen, fun c' h' => ?_⟩
          rw [Option.some_inj.mp h'.symm]
          exact of_decide_eq_true hcut
        · rintro ⟨hx, hlen, hcut⟩
          exact ⟨⟨hx, hlen⟩, decide_eq_true (hcut c rfl)⟩
  · have hs := @List.sorted_mergeSort _ tsLe tsLe_trans tsLe_total
      (windowFiltered history now hrs)
    exact List.Pairwise.imp (fun h => of_decide_eq_true h) hs
  · show (sortedTranscripts history now hrs).length ≤ (allTranscripts history).length
    rw [sortedTranscripts, List.length_mergeSort, windowFiltered]
    cases cutoffMs now hrs with
    | none => exact le_refl _
    | some c => exact List.length_filter_le _ _
  · show (allTranscripts history).length ≤ history.length
    calc (allTranscripts history).length
        ≤ ((history.filter fun e =>
            decide (statusOrSuccess e = EntryStatus.success)).map trimEntry).length :=
          List.length_filter_le _ _
      _ = (history.filter fun e =>
            decide (statusOrSuccess e = EntryStatus.success)).length :=
          List.length_map _ _
      _ ≤ history.length := List.length_filter_le _ _

/-- Concrete instantiation of the C8 theorem: of three entries (one good, one
empty-transcript, one failed) only the trimmed good one is included, and the
counts are 1 ≤ 1 ≤ 3. -/
theorem buildAnalysisPrompt_spec_witness :
    trimEntry (HistoryEntry.mk "a" " hi " 100 (some EntryStatus.success)) ∈
      sortedTranscripts
        [HistoryEntry.mk "a" " hi " 100 (some EntryStatus.success),
          HistoryEntry.mk "b" "   " 50 none,
          HistoryEntry.mk "c" "x" 200 (some EntryStatus.error)] 0 none ∧
    (buildAnalysisPrompt (fun _ => "") [HistoryEntry.mk "a" " hi " 100 (some EntryStatus.success),
          HistoryEntry.mk "b" "   " 50 none,
          HistoryEntry.mk "c" "x" 200 (some EntryStatus.error)] 0 none
        AnalysisPromptStyle.productive).includedCount ≤
      (buildAnalysisPrompt (fun _ => "") [HistoryEntry.mk "a" " hi " 100 (some EntryStatus.success),
          HistoryEntry.mk "b" "   " 50 none,
          HistoryEntry.mk "c" "x" 200 (some EntryStatus.error)] 0 none
        AnalysisPromptStyle.productive).availableTranscriptsCount ∧
    (buildAnalysisPrompt (fun _ => "") [HistoryEntry.mk "a" " hi " 100 (some EntryStatus.success),
          HistoryEntry.mk "b" "   " 50 none,
          HistoryEntry.mk "c" "x" 200 (some EntryStatus.error)] 0 none
        AnalysisPromptStyle.productive).availableTranscriptsCount ≤
      (buildAnalysisPrompt (fun _ => "") [HistoryEntry.mk "a" " hi " 100 (some EntryStatus.success),
          HistoryEntry.mk "b" "   " 50 none,
          HistoryEntry.mk "c" "x" 200 (some EntryStatus.error)] 0 none
        AnalysisPromptStyle.productive).totalCount := by
  have h := buildAnalysisPrompt_spec (fun _ => "")
    [HistoryEntry.mk "a" " hi " 100 (some EntryStatus.success),
      HistoryEntry.mk "b" "   " 50 none,
      HistoryEntry.mk "c" "x" 200 (some EntryStatus.error)] 0 none
    AnalysisPromptStyle.productive
  refine ⟨?_, h.2.2.2.1, h.2.2.2.2⟩
  have htrim : (" hi ").trim = "hi" := by
    simp only [String.trim, String.toSubstring, Substring.trim, Substring.toString]
    simp +decide [Substring.takeWhileAux, Substring.takeRightWhileAux]
  have hlen : 0 < (trimEntry
      (HistoryEntry.mk "a" " hi " 100 (some EntryStatus.success))).text.length := by
    show 0 < (" hi ").trim.length
    rw [htrim]
    decide
  exact (h.1 _).mpr
    ⟨⟨HistoryEntry.mk "a" " hi " 100 (some EntryStatus.success),
        List.mem_cons_self _ _, rfl, rfl⟩,
      hlen, fun c hc => Option.noConfusion hc⟩

end HistoryUI

namespace Overlay

/-- The hyperbolic tangent is bounded by 1 in absolute value. -/
theorem abs_tanh_le_one (y : ℝ) : |Real.tanh y| ≤ 1 := by
  rw [Real.tanh_eq_sinh_div_cosh, abs_div, abs_of_pos (Real.cosh_pos y),
    div_le_one (Real.cosh_pos y)]
  calc |Real.sinh y| = Real.sinh |y| := Real.abs_sinh y
    _ ≤ Real.cosh |y| := le_of_lt (Real.sinh_lt_cosh _)
    _ = Real.cosh y := Real.cosh_abs y

/-- The kernel weights are non-negative. -/
theorem kernelW_nonneg (o : ℤ) : 0 ≤ kernelW o := by
  unfold kernelW
  split_ifs <;> norm_num

/-- The spatial convolution preserves constant sequences at every index. -/
theorem spatialAt_const_aux {n : ℕ} (x : Fin n → ℝ) (c : ℝ) (hx : ∀ j, x j = c)
    (i : Fin n) : spatialAt x i = c := by
  unfold spatialAt
  set den := ∑ o ∈ Finset.Icc (-2 : ℤ) 2,
    if 0 ≤ (i : ℤ) + o ∧ (i : ℤ) + o < (n : ℤ) then kernelW o else 0 with hden
  have hdenpos : 0 < den := by
    have h0 : (0 : ℤ) ∈ Finset.Icc (-2 : ℤ) 2 := by decide
    have hcond : 0 ≤ (i : ℤ) + 0 ∧ (i : ℤ) + 0 < (n : ℤ) := by
      have := i.isLt
      omega
    have hnonneg : ∀ o ∈ Finset.Icc (-2 : ℤ) 2,
        (0 : ℝ) ≤ if 0 ≤ (i : ℤ) + o ∧ (i : ℤ) + o < (n : ℤ) then kernelW o else 0 := by
      intro o _
      split_ifs
      · exact kernelW_nonneg o
      · exact le_refl 0
    have hsingle := Finset.single_le_sum hnonneg h0
    rw [if_pos hcond] at hsingle
    have hk0 : (0 : ℝ) < kernelW 0 := by
      unfold kernelW
      norm_num
    exact lt_of_lt_of_le hk0 hsingle
  have hnum : (∑ o ∈ Finset.Icc (-2 : ℤ) 2,
      if h : 0 ≤ (i : ℤ) + o ∧ (i : ℤ) + o < (n : ℤ) then
        kernelW o * x ⟨((i : ℤ) + o).toNat, by omega⟩
      else 0) = den * c := by
    rw [hden, Finset.sum_mul]
    refine Finset.sum_congr rfl ?_
    intro o _
    by_cases h : 0 ≤ (i : ℤ) + o ∧ (i : ℤ) + o < (n : ℤ)
    · rw [dif_pos h, if_pos h, hx]
    · rw [dif_neg h, if_neg h, zero_mul]
  rw [hnum, mul_comm, mul_div_assoc, div_self (ne_of_gt hdenpos), mul_one]

/-- The speech metric is always non-negative. -/
theorem speechMetric_nonneg {m : ℕ} (binHz : ℚ) (freq : Fin m → ℝ) :
    0 ≤ speechMetric binHz freq :=
  mul_nonneg (Real.sqrt_nonneg _) (le_min (by norm_num) (le_max_left _ _))

/-- C7: when acquisition of a specifically requested device id fails, the
pipeline retries exactly once against the default device; if that also fails
the outcome is `CaptureUnavailable` and activation falls back to the
IdleAnimator rather than propagating a fatal error. -/
theorem openSession_retry_policy {σ : Type} (acquire : Option String → AcquireResult σ)
    (id : String) (hfail : acquire (some id) = AcquireResult.err) :
    (openSession acquire (some id)).1 = [some id, none] ∧
    (∀ s, acquire none = AcquireResult.ok s →
      (openSession acquire (some id)).2 = OpenResult.session s) ∧
    (acquire none = AcquireResult.err →
      (openSession acquire (some id)).2 =
        OpenResult.failure CaptureError.captureUnavailable ∧
      activate acquire (some id) = Mode.idle) := by
  cases hdef : acquire none with
  | ok s =>
      refine ⟨?_, ?_, ?_⟩
      · simp [openSession, hfail, hdef]
      · intro s' hs'
        cases hs'
        simp [openSession, hfail, hdef]
      · intro hd
        exact AcquireResult.noConfusion hd
  | err =>
      refine ⟨?_, ?_, ?_⟩
      · simp [openSession, hfail, hdef]
      · intro s' hs'
        exact AcquireResult.noConfusion hs'
      · intro _
        constructor
        · simp [openSession, hfail, hdef]
        · simp [activate, openSession, hfail, hdef]

/-- Concrete instantiation of the C7 theorem: with a provider that fails on
every device, a request for a specific microphone attempts that id then the
default, surfaces `CaptureUnavailable`, and activation lands in idle mode. -/
theorem openSession_retry_policy_witness :
    (openSession (fun _ => (AcquireResult.err : AcquireResult Unit)) (some "mic")).1 =
      [some "mic", none] ∧
    (openSession (fun _ => (AcquireResult.err : AcquireResult Unit)) (some "mic")).2 =
      OpenResult.failure CaptureError.captureUnavailable ∧
    activate (fun _ => (AcquireResult.err : AcquireResult Unit)) (some "mic") =
      Mode.idle := by
  have h := @openSession_retry_policy Unit (fun _ => AcquireResult.err) "mic" rfl
  exact ⟨h.1, (h.2.2 rfl).1, (h.2.2 rfl).2⟩

/-- C2: every point of the shaped frame produced by the WaveformShaper on a
non-silent tick (gain, then deadzone, then tanh soft clipping) has absolute
value at most 1, for any gain and any input amplitude. -/
theorem shapedFrame_bounded (cfg : Config) {n : ℕ} (gain : ℝ) (next : Fin n → ℝ)
    (i : Fin n) : |shapedFrame cfg false gain next i| ≤ 1 := by
  simp only [shapedFrame, Bool.false_eq_true, if_false, shapePoint, softClip]
  exact abs_tanh_le_one _

/-- C4: applying the SpatialSmoother's fixed 5-tap kernel to a constant
sequence returns the same constant sequence at every index, boundary points
included. -/
theorem spatialAt_const {n : ℕ} (x : Fin n → ℝ) (c : ℝ) (hx : ∀ j, x j = c)
    (i : Fin n) : spatialAt x i = c :=
  spatialAt_const_aux x c hx i

/-- Concrete instantiation of the C4 theorem: the constant-2 sequence of
length 3 is preserved at the left boundary point. -/
theorem spatialAt_const_witness :
    (∀ j : Fin 3, (fun _ : Fin 3 => (2 : ℝ)) j = 2) ∧
    spatialAt (fun _ : Fin 3 => (2 : ℝ)) 0 = 2 :=
  ⟨fun _ => rfl, spatialAt_const (fun _ : Fin 3 => (2 : ℝ)) 2 (fun _ => rfl) 0⟩

/-- C5: the VoiceActivityEstimator guards the zero-denominator case of
`speechRatio` to ratio 0, and `speechMetric = speechRms * clamp(ratio, 0, 1.6)`
is non-negative and never exceeds `1.6 * speechRms`. -/
theorem voiceEstimator_safety {m : ℕ} (binHz : ℚ) (freq : Fin m → ℝ) :
    (totalRms binHz freq = 0 → speechRatio binHz freq = 0) ∧
    0 ≤ speechMetric binHz freq ∧
    speechMetric binHz freq ≤ 1.6 * speechRms binHz freq := by
  refine ⟨fun h => by rw [speechRatio, if_pos h], speechMetric_nonneg binHz freq, ?_⟩
  rw [speechMetric, mul_comm (speechRms binHz freq)]
  exact mul_le_mul_of_nonneg_right (min_le_left _ _) (Real.sqrt_nonneg _)

/-- Concrete instantiation of the C5 theorem: on an all-zero frequency
snapshot the total RMS is zero, the guarded ratio is 0, and the metric is
non-negative. -/
theorem voiceEstimator_safety_witness :
    totalRms 1000 (fun _ : Fin 4 => (0 : ℝ)) = 0 ∧
    speechRatio 1000 (fun _ : Fin 4 => (0 : ℝ)) = 0 ∧
    0 ≤ speechMetric 1000 (fun _ : Fin 4 => (0 : ℝ)) := by
  have h0 : totalRms 1000 (fun _ : Fin 4 => (0 : ℝ)) = 0 := by
    simp [totalRms, bandRms]
  have h := voiceEstimator_safety 1000 (fun _ : Fin 4 => (0 : ℝ))
  exact ⟨h0, h.1 h0, h.2.1⟩

end Overlay

namespace Overlay

/-- When the metric does not exceed the floor plus the margin, the normalized
voice energy is exactly zero. -/
theorem voiceEnergy_eq_zero (cfg : Config) (floor metric : ℝ)
    (hscale : 0 < cfg.energyScale) (h : metric ≤ floor + cfg.noiseMargin) :
    voiceEnergy cfg floor metric = 0 := by
  unfold voiceEnergy
  have ht : (metric - (floor + cfg.noiseMargin)) / cfg.energyScale ≤ 0 :=
    div_nonpos_iff.mpr (Or.inr ⟨by linarith, hscale.le⟩)
  rw [min_eq_right (le_trans ht (by norm_num)), max_eq_left ht]

/-- C1: on every tick whose gate is silent, the TemporalSmoother's persistent
buffer and the WaveformShaper's point buffer are exactly all-zero at the end
of that same tick: both are snapped, never decayed. -/
theorem silence_snap (cfg : Config) {n m : ℕ} (binHz : ℚ) (st : State n)
    (next : Fin n → ℝ) (freq : Fin m → ℝ)
    (h : tickIsSilent cfg binHz st.noiseFloor freq = true) :
    (∀ i, (tick cfg binHz st next freq).lastPoints i = 0) ∧
    (∀ i, tickShapedFrame cfg binHz st next freq i = 0) := by
  constructor
  · intro i
    show tickLastPoints cfg binHz st next freq i = 0
    simp [tickLastPoints, temporalStep, h]
  · intro i
    simp [tickShapedFrame, shapedFrame, h]

/-- Concrete instantiation of the C1 theorem: a zero state with an all-zero
frequency snapshot gates silent, and both buffers are all-zero after the
tick. -/
theorem silence_snap_witness :
    tickIsSilent cfgW 1000
      (State.mk (fun _ : Fin 4 => (0 : ℝ)) (fun _ => 0) 0 0).noiseFloor
      (fun _ : Fin 4 => (0 : ℝ)) = true ∧
    (∀ i, (tick cfgW 1000 (State.mk (fun _ : Fin 4 => (0 : ℝ)) (fun _ => 0) 0 0)
      (fun _ : Fin 4 => (0 : ℝ)) (fun _ : Fin 4 => (0 : ℝ))).lastPoints i = 0) ∧
    (∀ i, tickShapedFrame cfgW 1000 (State.mk (fun _ : Fin 4 => (0 : ℝ)) (fun _ => 0) 0 0)
      (fun _ : Fin 4 => (0 : ℝ)) (fun _ : Fin 4 => (0 : ℝ)) i = 0) := by
  have hmetric : speechMetric 1000 (fun _ : Fin 4 => (0 : ℝ)) = 0 := by
    simp [speechMetric, speechRms, bandRms]
  have hfloor : tickFloor cfgW 1000 (0 : ℝ) (fun _ : Fin 4 => (0 : ℝ)) = 0 := by
    simp only [tickFloor, hmetric]
    unfold noiseFloorStep
    norm_num
  have hsilent : tickIsSilent cfgW 1000 (0 : ℝ) (fun _ : Fin 4 => (0 : ℝ)) = true := by
    simp only [tickIsSilent, decide_eq_true_eq, hmetric, hfloor]
    rw [voiceEnergy_eq_zero cfgW 0 0 (by norm_num [cfgW]) (by norm_num [cfgW])]
    norm_num [cfgW]
  have h := silence_snap cfgW 1000
    (State.mk (fun _ : Fin 4 => (0 : ℝ)) (fun _ => 0) 0 0)
    (fun _ : Fin 4 => (0 : ℝ)) (fun _ : Fin 4 => (0 : ℝ)) hsilent
  exact ⟨hsilent, h.1, h.2⟩

/-- One noise-floor step keeps the floor non-negative whenever the metric is
non-negative and the rates lie in the unit interval. -/
theorem noiseFloorStep_nonneg (cfg : Config) (hrs0 : 0 ≤ cfg.riseSmall)
    (hrp0 : 0 ≤ cfg.riseSpike) (hf0 : 0 ≤ cfg.fall) (hf1 : cfg.fall ≤ 1)
    (F M : ℝ) (hF : 0 ≤ F) (hM : 0 ≤ M) : 0 ≤ noiseFloorStep cfg F M := by
  unfold noiseFloorStep
  split_ifs with h1 h2
  · have : 0 ≤ cfg.riseSpike * (M - F) := mul_nonneg hrp0 (by linarith)
    linarith
  · have : 0 ≤ cfg.riseSmall * (M - F) := mul_nonneg hrs0 (by linarith)
    linarith
  · have h1' : M ≤ F := not_lt.mp h1
    nlinarith [mul_nonneg hf0 hM, mul_nonneg (sub_nonneg.mpr hf1) hF]

/-- Small-excess branch of the asymmetric update. -/
theorem noiseFloorStep_rise_small (cfg : Config) (F M : ℝ) (hlt : F < M)
    (hle : M ≤ F + cfg.spikeDelta) :
    noiseFloorStep cfg F M - F = cfg.riseSmall * (M - F) := by
  unfold noiseFloorStep
  rw [if_pos hlt, if_neg (not_lt.mpr hle), add_sub_cancel_left]

/-- Spike branch of the asymmetric update. -/
theorem noiseFloorStep_rise_spike (cfg : Config) (F M : ℝ)
    (hsd : 0 ≤ cfg.spikeDelta) (hspike : F + cfg.spikeDelta < M) :
    noiseFloorStep cfg F M - F = cfg.riseSpike * (M - F) := by
  unfold noiseFloorStep
  rw [if_pos (lt_of_le_of_lt (le_add_of_nonneg_right hsd) hspike), if_pos hspike,
    add_sub_cancel_left]

/-- Fall branch of the asymmetric update. -/
theorem noiseFloorStep_fall (cfg : Config) (F M : ℝ) (hle : M ≤ F) :
    noiseFloorStep cfg F M - F = cfg.fall * (M - F) := by
  unfold noiseFloorStep
  rw [if_neg (not_lt.mpr hle), add_sub_cancel_left]

/-- The per-tick floor change is bounded by the largest configured rate times
the metric-to-floor distance. -/
theorem noiseFloorStep_change_bound (cfg : Config) (hrs0 : 0 ≤ cfg.riseSmall)
    (hrp0 : 0 ≤ cfg.riseSpike) (hrp1 : cfg.riseSpike ≤ cfg.riseSmall)
    (hf0 : 0 ≤ cfg.fall) (F M : ℝ) :
    |noiseFloorStep cfg F M - F| ≤ max cfg.riseSmall cfg.fall * |M - F| := by
  unfold noiseFloorStep
  split_ifs with h1 h2
  · rw [add_sub_cancel_left, abs_mul, abs_of_nonneg hrp0]
    exact mul_le_mul_of_nonneg_right (le_trans hrp1 (le_max_left _ _)) (abs_nonneg _)
  · rw [add_sub_cancel_left, abs_mul, abs_of_nonneg hrs0]
    exact mul_le_mul_of_nonneg_right (le_max_left _ _) (abs_nonneg _)
  · rw [add_sub_cancel_left, abs_mul, abs_of_nonneg hf0]
    exact mul_le_mul_of_nonneg_right (le_max_right _ _) (abs_nonneg _)

/-- C3: along any sequence of ticks, the noise floor stays non-negative and
moves only by the asymmetric update rule: rise by the slow-rise rate on a
small excess, by the (even smaller) spike rate far above the floor, fall by
the fall rate below it, with the per-tick change bounded by the largest
configured rate times the metric-to-floor distance. -/
theorem noiseFloor_invariant (cfg : Config) {n m : ℕ} (binHz : ℚ) (st0 : State n)
    (nexts : ℕ → Fin n → ℝ) (freqs : ℕ → Fin m → ℝ)
    (h0 : 0 ≤ st0.noiseFloor)
    (hrs0 : 0 ≤ cfg.riseSmall) (hrs1 : cfg.riseSmall ≤ 1)
    (hrp0 : 0 ≤ cfg.riseSpike) (hrp1 : cfg.riseSpike ≤ cfg.riseSmall)
    (hf0 : 0 ≤ cfg.fall) (hf1 : cfg.fall ≤ 1)
    (hsd : 0 ≤ cfg.spikeDelta) :
    ∀ k,
      0 ≤ (runTicks cfg binHz st0 nexts freqs k).noiseFloor ∧
      (runTicks cfg binHz st0 nexts freqs (k + 1)).noiseFloor =
        noiseFloorStep cfg (runTicks cfg binHz st0 nexts freqs k).noiseFloor
          (speechMetric binHz (freqs k)) ∧
      ((runTicks cfg binHz st0 nexts freqs k).noiseFloor <
          speechMetric binHz (freqs k) →
        speechMetric binHz (freqs k) ≤
          (runTicks cfg binHz st0 nexts freqs k).noiseFloor + cfg.spikeDelta →
        (runTicks cfg binHz st0 nexts freqs (k + 1)).noiseFloor -
            (runTicks cfg binHz st0 nexts freqs k).noiseFloor =
          cfg.riseSmall * (speechMetric binHz (freqs k) -
            (runTicks cfg binHz st0 nexts freqs k).noiseFloor)) ∧
      ((runTicks cfg binHz st0 nexts freqs k).noiseFloor + cfg.spikeDelta <
          speechMetric binHz (freqs k) →
        (runTicks cfg binHz st0 nexts freqs (k + 1)).noiseFloor -
            (runTicks cfg binHz st0 nexts freqs k).noiseFloor =
          cfg.riseSpike * (speechMetric binHz (freqs k) -
            (runTicks cfg binHz st0 nexts freqs k).noiseFloor)) ∧
      (speechMetric binHz (freqs k) ≤
          (runTicks cfg binHz st0 nexts freqs k).noiseFloor →
        (runTicks cfg binHz st0 nexts freqs (k + 1)).noiseFloor -
            (runTicks cfg binHz st0 nexts freqs k).noiseFloor =
          cfg.fall * (speechMetric binHz (freqs k) -
            (runTicks cfg binHz st0 nexts freqs k).noiseFloor)) ∧
      |(runTicks cfg binHz st0 nexts freqs (k + 1)).noiseFloor -
          (runTicks cfg binHz st0 nexts freqs k).noiseFloor| ≤
        max cfg.riseSmall cfg.fall *
          |speechMetric binHz (freqs k) -
            (runTicks cfg binHz st0 nexts freqs k).noiseFloor| := by
  have hnonneg : ∀ k, 0 ≤ (runTicks cfg binHz st0 nexts freqs k).noiseFloor := by
    intro k
    induction k with
    | zero => exact h0
    | succ k ih =>
        show 0 ≤ noiseFloorStep cfg (runTicks cfg binHz st0 nexts freqs k).noiseFloor
          (speechMetric binHz (freqs k))
        exact noiseFloorStep_nonneg cfg hrs0 hrp0 hf0 hf1 _ _ ih
          (speechMetric_nonneg _ _)
  intro k
  refine ⟨hnonneg k, rfl, ?_, ?_, ?_, ?_⟩
  · intro hlt hle
    exact noiseFloorStep_rise_small cfg _ _ hlt hle
  · intro hspike
    exact noiseFloorStep_rise_spike cfg _ _ hsd hspike
  · intro hle
    exact noiseFloorStep_fall cfg _ _ hle
  · exact noiseFloorStep_change_bound cfg hrs0 hrp0 hrp1 hf0 _ _

/-- Concrete instantiation of the C3 theorem: the sample configuration meets
every rate hypothesis and the floor stays non-negative along a run of
all-zero snapshots. -/
theorem noiseFloor_invariant_witness :
    (0 : ℝ) ≤ (State.mk (fun _ : Fin 2 => (0 : ℝ)) (fun _ => 0) 0 0).noiseFloor ∧
    0 ≤ cfgW.riseSmall ∧ cfgW.riseSmall ≤ 1 ∧ 0 ≤ cfgW.riseSpike ∧
    cfgW.riseSpike ≤ cfgW.riseSmall ∧ 0 ≤ cfgW.fall ∧ cfgW.fall ≤ 1 ∧
    0 ≤ cfgW.spikeDelta ∧
    ∀ k, 0 ≤ (runTicks cfgW (1000 : ℚ)
      (State.mk (fun _ : Fin 2 => (0 : ℝ)) (fun _ => 0) 0 0)
      (fun _ => fun _ => 0) (fun _ => fun _ : Fin 2 => (0 : ℝ)) k).noiseFloor := by
  refine ⟨le_refl 0, by norm_num [cfgW], by norm_num [cfgW], by norm_num [cfgW],
    by norm_num [cfgW], by norm_num [cfgW], by norm_num [cfgW], by norm_num [cfgW],
    fun k => ?_⟩
  exact (noiseFloor_invariant cfgW 1000
    (State.mk (fun _ : Fin 2 => (0 : ℝ)) (fun _ => 0) 0 0)
    (fun _ => fun _ => 0) (fun _ => fun _ : Fin 2 => (0 : ℝ))
    (le_refl 0) (by norm_num [cfgW]) (by norm_num [cfgW]) (by norm_num [cfgW])
    (by norm_num [cfgW]) (by norm_num [cfgW]) (by norm_num [cfgW])
    (by norm_num [cfgW]) k).1

end Overlay

namespace Overlay

/-- RMS over a nonempty band of a constant snapshot is the constant itself. -/
theorem bandRms_const {m : ℕ} (s : Finset (Fin m)) (hs : s.Nonempty) (v : ℝ)
    (hv : 0 ≤ v) : bandRms s (fun _ => v) = v := by
  show Real.sqrt ((∑ _i ∈ s, v ^ 2) / s.card) = v
  have hcard : (0 : ℝ) < s.card := by
    exact_mod_cast Finset.card_pos.mpr hs
  rw [Finset.sum_const, nsmul_eq_mul, mul_div_cancel_left₀ _ (ne_of_gt hcard)]
  exact Real.sqrt_sq hv

/-- On a constant broadband snapshot (equal energy in all bins) the speech
ratio is exactly 1 and the speech metric equals the snapshot level. -/
theorem speechMetric_const {m : ℕ} (binHz : ℚ) (v : ℝ) (hv : 0 < v)
    (hsb : (speechBins m binHz).Nonempty) (htb : (totalBins m binHz).Nonempty) :
    speechRatio binHz (fun _ : Fin m => v) = 1 ∧
    totalRms binHz (fun _ : Fin m => v) = v ∧
    speechMetric binHz (fun _ : Fin m => v) = v := by
  have h1 : speechRms binHz (fun _ : Fin m => v) = v := by
    unfold speechRms
    exact bandRms_const _ hsb v hv.le
  have h2 : totalRms binHz (fun _ : Fin m => v) = v := by
    unfold totalRms
    exact bandRms_const _ htb v hv.le
  have h3 : speechRatio binHz (fun _ : Fin m => v) = 1 := by
    unfold speechRatio
    rw [if_neg (by rw [h2]; exact ne_of_gt hv), h1, h2, div_self (ne_of_gt hv)]
  refine ⟨h3, h2, ?_⟩
  unfold speechMetric
  rw [h1, h3, max_eq_right zero_le_one, min_eq_right (by norm_num), mul_one]

/-- One floor update shrinks a positive metric-to-floor gap by at least the
factor `1 - min riseSmall riseSpike`, and never re-opens a closed gap. -/
theorem noiseFloorStep_gap (cfg : Config) (hrs0 : 0 < cfg.riseSmall)
    (hrs1 : cfg.riseSmall ≤ 1) (hrp0 : 0 < cfg.riseSpike) (hrp1 : cfg.riseSpike ≤ 1)
    (hf0 : 0 ≤ cfg.fall) (hf1 : cfg.fall ≤ 1) (F v D : ℝ) (hD0 : 0 ≤ D)
    (hgap : v - F ≤ D) :
    v - noiseFloorStep cfg F v ≤ (1 - min cfg.riseSmall cfg.riseSpike) * D := by
  have h1r : 0 ≤ 1 - min cfg.riseSmall cfg.riseSpike := by
    have := min_le_left cfg.riseSmall cfg.riseSpike
    linarith
  unfold noiseFloorStep
  split_ifs with h1 h2
  · have hvF : 0 ≤ v - F := (sub_pos.mpr h1).le
    have heq : v - (F + cfg.riseSpike * (v - F)) = (1 - cfg.riseSpike) * (v - F) := by
      ring
    rw [heq]
    have hstep : (1 - cfg.riseSpike) * (v - F) ≤
        (1 - min cfg.riseSmall cfg.riseSpike) * (v - F) :=
      mul_le_mul_of_nonneg_right
        (by linarith [min_le_right cfg.riseSmall cfg.riseSpike]) hvF
    exact le_trans hstep (mul_le_mul_of_nonneg_left hgap h1r)
  · have hvF : 0 ≤ v - F := (sub_pos.mpr h1).le
    have heq : v - (F + cfg.riseSmall * (v - F)) = (1 - cfg.riseSmall) * (v - F) := by
      ring
    rw [heq]
    have hstep : (1 - cfg.riseSmall) * (v - F) ≤
        (1 - min cfg.riseSmall cfg.riseSpike) * (v - F) :=
      mul_le_mul_of_nonneg_right
        (by linarith [min_le_left cfg.riseSmall cfg.riseSpike]) hvF
    exact le_trans hstep (mul_le_mul_of_nonneg_left hgap h1r)
  · have hvF : v - F ≤ 0 := sub_nonpos.mpr (not_lt.mp h1)
    have heq : v - (F + cfg.fall * (v - F)) = (1 - cfg.fall) * (v - F) := by
      ring
    rw [heq]
    have hnp : (1 - cfg.fall) * (v - F) ≤ 0 :=
      mul_nonpos_iff.mpr (Or.inl ⟨by linarith, hvF⟩)
    exact le_trans hnp (mul_nonneg h1r hD0)

/-- C6: a constant broadband snapshot (equal energy in all bins) sustained
tick after tick keeps the speech ratio at 1 (no speech-band amplification)
and, once the adaptive floor has absorbed it, the voice energy stays below the
silence threshold, the gate reads silent, and the emitted line is all-zero
despite nonzero total energy. -/
theorem broadband_stays_flat (cfg : Config) {n m : ℕ} (binHz : ℚ) (st0 : State n)
    (nexts : ℕ → Fin n → ℝ) (v : ℝ) (hv : 0 < v)
    (hsb : (speechBins m binHz).Nonempty) (htb : (totalBins m binHz).Nonempty)
    (hrs0 : 0 < cfg.riseSmall) (hrs1 : cfg.riseSmall ≤ 1)
    (hrp0 : 0 < cfg.riseSpike) (hrp1 : cfg.riseSpike ≤ 1)
    (hf0 : 0 ≤ cfg.fall) (hf1 : cfg.fall ≤ 1)
    (hmargin : 0 < cfg.noiseMargin) (hth : 0 < cfg.silenceThreshold)
    (hscale : 0 < cfg.energyScale) :
    speechRatio binHz (fun _ : Fin m => v) = 1 ∧
    0 < totalRms binHz (fun _ : Fin m => v) ∧
    ∃ N, ∀ k, N ≤ k →
      voiceEnergy cfg
          (runTicks cfg binHz st0 nexts (fun _ => fun _ : Fin m => v) (k + 1)).noiseFloor
          (speechMetric binHz (fun _ : Fin m => v)) < cfg.silenceThreshold ∧
      tickIsSilent cfg binHz
          (runTicks cfg binHz st0 nexts (fun _ => fun _ : Fin m => v) k).noiseFloor
          (fun _ : Fin m => v) = true ∧
      (∀ i, (runTicks cfg binHz st0 nexts
          (fun _ => fun _ : Fin m => v) (k + 1)).lastPoints i = 0) ∧
      (∀ i, (runTicks cfg binHz st0 nexts
          (fun _ => fun _ : Fin m => v) (k + 1)).drawPoints i = 0) := by
  obtain ⟨hratio, htotal, hmetric⟩ := speechMetric_const binHz v hv hsb htb
  refine ⟨hratio, by rw [htotal]; exact hv, ?_⟩
  set r := min cfg.riseSmall cfg.riseSpike with hrdef
  have hr0 : 0 < r := lt_min hrs0 hrp0
  have hr1 : r ≤ 1 := le_trans (min_le_left _ _) hrs1
  set D0 : ℝ := max (v - st0.noiseFloor) 0 with hD0def
  have hD0 : 0 ≤ D0 := le_max_right _ _
  have hrec : ∀ k,
      (runTicks cfg binHz st0 nexts (fun _ => fun _ : Fin m => v) (k + 1)).noiseFloor =
      noiseFloorStep cfg
        (runTicks cfg binHz st0 nexts (fun _ => fun _ : Fin m => v) k).noiseFloor v := by
    intro k
    show noiseFloorStep cfg _ (speechMetric binHz (fun _ : Fin m => v)) = _
    rw [hmetric]
  have hgap : ∀ k,
      v - (runTicks cfg binHz st0 nexts (fun _ => fun _ : Fin m => v) k).noiseFloor ≤
        (1 - r) ^ k * D0 := by
    intro k
    induction k with
    | zero =>
        simp only [pow_zero, one_mul]
        show v - st0.noiseFloor ≤ D0
        exact le_max_left _ _
    | succ k ih =>
        rw [hrec k]
        have hstep := noiseFloorStep_gap cfg hrs0 hrs1 hrp0 hrp1 hf0 hf1
          (runTicks cfg binHz st0 nexts (fun _ => fun _ : Fin m => v) k).noiseFloor v
          ((1 - r) ^ k * D0)
          (mul_nonneg (pow_nonneg (by linarith) k) hD0) ih
        rw [← hrdef] at hstep
        calc v - noiseFloorStep cfg
              (runTicks cfg binHz st0 nexts (fun _ => fun _ : Fin m => v) k).noiseFloor v ≤
            (1 - r) * ((1 - r) ^ k * D0) := hstep
          _ = (1 - r) ^ (k + 1) * D0 := by ring
  obtain ⟨N, hN⟩ := exists_pow_lt_of_lt_one
    (div_pos hmargin (by linarith : (0 : ℝ) < D0 + 1)) (by linarith : 1 - r < 1)
  refine ⟨N, fun k hk => ?_⟩
  have hkgap : v - (runTicks cfg binHz st0 nexts
      (fun _ => fun _ : Fin m => v) (k + 1)).noiseFloor ≤ cfg.noiseMargin := by
    have h1 : (1 - r) ^ (k + 1) ≤ (1 - r) ^ N :=
      pow_le_pow_of_le_one (by linarith) (by linarith) (by omega)
    have h2 : (1 - r) ^ (k + 1) * D0 ≤ (1 - r) ^ N * D0 :=
      mul_le_mul_of_nonneg_right h1 hD0
    have h3 : (1 - r) ^ N * D0 ≤ cfg.noiseMargin / (D0 + 1) * D0 :=
      mul_le_mul_of_nonneg_right hN.le hD0
    have h4 : cfg.noiseMargin / (D0 + 1) * D0 ≤ cfg.noiseMargin := by
      rw [div_mul_eq_mul_div, div_le_iff₀ (by linarith : (0 : ℝ) < D0 + 1)]
      nlinarith
    linarith [hgap (k + 1)]
  have henergy : voiceEnergy cfg
      (runTicks cfg binHz st0 nexts (fun _ => fun _ : Fin m => v) (k + 1)).noiseFloor
      (speechMetric binHz (fun _ : Fin m => v)) = 0 := by
    rw [hmetric]
    exact voiceEnergy_eq_zero cfg _ v hscale (by linarith)
  have hlt : voiceEnergy cfg
      (runTicks cfg binHz st0 nexts (fun _ => fun _ : Fin m => v) (k + 1)).noiseFloor
      (speechMetric binHz (fun _ : Fin m => v)) < cfg.silenceThreshold := by
    rw [henergy]
    exact hth
  have hsilent : tickIsSilent cfg binHz
      (runTicks cfg binHz st0 nexts (fun _ => fun _ : Fin m => v) k).noiseFloor
      (fun _ : Fin m => v) = true := by
    simp only [tickIsSilent, decide_eq_true_eq]
    exact hlt
  refine ⟨hlt, hsilent, ?_, ?_⟩
  · intro i
    show tickLastPoints cfg binHz
      (runTicks cfg binHz st0 nexts (fun _ => fun _ : Fin m => v) k)
      (nexts k) (fun _ : Fin m => v) i = 0
    simp [tickLastPoints, temporalStep, hsilent]
  · intro i
    show spatialAt (tickLastPoints cfg binHz
      (runTicks cfg binHz st0 nexts (fun _ => fun _ : Fin m => v) k)
      (nexts k) (fun _ : Fin m => v)) i = 0
    have hzero : tickLastPoints cfg binHz
        (runTicks cfg binHz st0 nexts (fun _ => fun _ : Fin m => v) k)
        (nexts k) (fun _ : Fin m => v) = fun _ => (0 : ℝ) := by
      funext j
      simp [tickLastPoints, temporalStep, hsilent]
    rw [hzero]
    exact spatialAt_const_aux (fun _ => 0) 0 (fun _ => rfl) i

end Overlay

namespace Overlay

/-- Concrete instantiation of the C6 theorem: with an 8-bin spectrum at
500 Hz per bin, both bands are nonempty, the sample configuration meets every
rate hypothesis, and a sustained all-ones broadband snapshot keeps ratio 1,
positive total energy, and an eventually silent, all-zero line. -/
theorem broadband_stays_flat_witness :
    (speechBins 8 (500 : ℚ)).Nonempty ∧ (totalBins 8 (500 : ℚ)).Nonempty ∧
    (speechRatio (500 : ℚ) (fun _ : Fin 8 => (1 : ℝ)) = 1 ∧
      0 < totalRms (500 : ℚ) (fun _ : Fin 8 => (1 : ℝ)) ∧
      ∃ N, ∀ k, N ≤ k →
        voiceEnergy cfgW
            (runTicks cfgW 500 (State.mk (fun _ : Fin 1 => (0 : ℝ)) (fun _ => 0) 0 0)
              (fun _ => fun _ => 0) (fun _ => fun _ : Fin 8 => (1 : ℝ)) (k + 1)).noiseFloor
            (speechMetric 500 (fun _ : Fin 8 => (1 : ℝ))) < cfgW.silenceThreshold ∧
        tickIsSilent cfgW 500
            (runTicks cfgW 500 (State.mk (fun _ : Fin 1 => (0 : ℝ)) (fun _ => 0) 0 0)
              (fun _ => fun _ => 0) (fun _ => fun _ : Fin 8 => (1 : ℝ)) k).noiseFloor
            (fun _ : Fin 8 => (1 : ℝ)) = true ∧
        (∀ i, (runTicks cfgW 500 (State.mk (fun _ : Fin 1 => (0 : ℝ)) (fun _ => 0) 0 0)
            (fun _ => fun _ => 0) (fun _ => fun _ : Fin 8 => (1 : ℝ)) (k + 1)).lastPoints i = 0) ∧
        (∀ i, (runTicks cfgW 500 (State.mk (fun _ : Fin 1 => (0 : ℝ)) (fun _ => 0) 0 0)
            (fun _ => fun _ => 0) (fun _ => fun _ : Fin 8 => (1 : ℝ)) (k + 1)).drawPoints i = 0)) := by
  have hsb : (speechBins 8 (500 : ℚ)).Nonempty := by
    refine ⟨1, Finset.mem_filter.mpr ⟨Finset.mem_univ _, ?_, ?_⟩⟩ <;> norm_num
  have htb : (totalBins 8 (500 : ℚ)).Nonempty := by
    refine ⟨1, Finset.mem_filter.mpr ⟨Finset.mem_univ _, ?_, ?_⟩⟩ <;> norm_num
  refine ⟨hsb, htb, ?_⟩
  exact broadband_stays_flat cfgW 500
    (State.mk (fun _ : Fin 1 => (0 : ℝ)) (fun _ => 0) 0 0)
    (fun _ => fun _ => 0) 1 one_pos hsb htb
    (by norm_num [cfgW]) (by norm_num [cfgW]) (by norm_num [cfgW]) (by norm_num [cfgW])
    (by norm_num [cfgW]) (by norm_num [cfgW]) (by norm_num [cfgW]) (by norm_num [cfgW])
    (by norm_num [cfgW])

end Overlay
